import Mathlib

/-!
# Verification of the PulseAudio asynchronous message queue

Shallow embedding of `src/pulsecore/asyncmsgq.c` and the consumer-side
readiness callback `asyncmsgq_cb` of `src/pulsecore/core.c`.

Modelling conventions:
* Pointers to message objects (`pa_msgobject *`), memory blocks
  (`pa_memblock *`), free callbacks (`pa_free_cb_t`) and semaphores
  (`pa_semaphore *`) are modelled as `Option Nat` identifiers; `none` is the
  NULL pointer.  The opaque `void *userdata` is a `Nat`.
* The underlying `pa_asyncq` FIFO is modelled as a `List Item` (push appends
  at the tail, pop takes the head).  `pa_asyncq_pop` with `wait` set blocks
  until an item arrives; sequentially an empty queue therefore means the pop
  fails (this is also the queue-destroyed case the spec mentions).
* The process-wide `pa_flist` item pool is modelled by its occupancy
  `poolFree` and capacity `poolCap`: `pa_flist_pop` succeeds iff the pool is
  non-empty, `pa_flist_push` succeeds iff it is not full.
* Side effects that the C code performs through its collaborators (refcount
  increments and decrements, `free_cb` invocations, semaphore operations,
  pool and heap traffic) are recorded in an explicit `Effect` trace, so that
  "exactly once" resource claims become counting statements over the trace.
* `pa_assert` failures abort the process; every operation therefore returns
  an `Option`, with `none` meaning an assertion failed.
-/

/-- One effect event performed by the queue through its collaborators. -/
inductive Effect where
  | objRefInc (o : Nat)
  | objRefDec (o : Nat)
  | blockRefInc (b : Nat)
  | blockRefDec (b : Nat)
  | freeCbCall (cb : Nat) (ud : Nat)
  | poolAcquire
  | heapAlloc
  | poolReturn
  | heapFree
  | semNew (s : Nat)
  | semWait (s : Nat)
  | semPost (s : Nat)
  | semFree (s : Nat)
  | retStore (s : Nat) (r : Int)
  | dispatchCall (code : Int) (r : Int)
  | afterPoll
  | beforePoll (r : Int)
  | mutexLock
  | qPush (wait : Bool)
  | mutexUnlock
  | asyncqFree
  | mutexFree
  | structFree
  deriving DecidableEq

/-- Number of occurrences of effect `e` in a trace. -/
def ecount (e : Effect) (es : List Effect) : Nat :=
  (es.filter (fun x => x = e)).length

/-- `pa_memchunk`: a window into a refcounted memory block.  `memblock = none`
models a NULL block pointer. -/
structure Memchunk where
  memblock : Option Nat
  index : Nat
  length : Nat
  deriving DecidableEq

/-- `pa_memchunk_reset`: clears the chunk (NULL block, zero index/length). -/
def pa_memchunk_reset : Memchunk := ⟨none, 0, 0⟩

/-- `struct asyncmsgq_item` of asyncmsgq.c.  On the post path the source
leaves `ret` uninitialized (it is never read there); we model it as 0. -/
structure Item where
  code : Int
  object : Option Nat
  userdata : Nat
  free_cb : Option Nat
  offset : Int
  memchunk : Memchunk
  semaphore : Option Nat
  ret : Int
  deriving DecidableEq

/-- `struct pa_asyncmsgq` together with the state of its collaborators:
the underlying asyncq as a FIFO list, the in-flight `current` item, the
item-pool occupancy and capacity (modelled from the spec: the `pa_flist`
free-list is size-bounded, pop fails when empty, push fails when full),
and the semaphore environment (`nextSem` provides fresh ids, `semPosted`
records posted semaphores, `semRet` the `ret` value the consumer stored in
the sender's stack item, keyed by the item's unique semaphore). -/
structure AMQState where
  asyncq : List Item
  current : Option Item
  poolFree : Nat
  poolCap : Nat
  nextSem : Nat
  semPosted : List Nat
  semRet : List (Nat × Int)
  deriving DecidableEq

/-- `pa_asyncmsgq_post` (asyncmsgq.c lines 100-124): acquire an item from
the pool (heap fallback), fill it in — incrementing the object's refcount if
present, copying the chunk and incrementing its block's refcount if present
(the block's existence is asserted), clearing the semaphore — and push it
onto the asyncq under the writer mutex with `wait = true` (the push's
success is asserted).  Returns `none` on assertion failure. -/
def pa_asyncmsgq_post (a : AMQState) (object : Option Nat) (code : Int)
    (userdata : Nat) (offset : Int) (chunk : Option Memchunk)
    (free_cb : Option Nat) : Option (AMQState × List Effect) :=
  let (poolFree1, acqEff) :=
    if 0 < a.poolFree then (a.poolFree - 1, [Effect.poolAcquire])
    else (a.poolFree, [Effect.heapAlloc])
  let objEff : List Effect :=
    match object with
    | some o => [Effect.objRefInc o]
    | none => []
  let finish : Memchunk → List Effect → Option (AMQState × List Effect) :=
    fun mc chunkEff =>
      let i : Item :=
        { code := code, object := object, userdata := userdata,
          free_cb := free_cb, offset := offset, memchunk := mc,
          semaphore := none, ret := 0 }
      some ({ a with poolFree := poolFree1, asyncq := a.asyncq ++ [i] },
            acqEff ++ objEff ++ chunkEff ++
              [Effect.mutexLock, Effect.qPush true, Effect.mutexUnlock])
  match chunk with
  | some ch =>
    match ch.memblock with
    | none => none
    | some b => finish ch [Effect.blockRefInc b]
  | none => finish pa_memchunk_reset []

/-- First half of `pa_asyncmsgq_send` (asyncmsgq.c lines 126-146): the item
is built on the caller's stack — `free_cb` NULL, `ret = -1`, a fresh
semaphore initialized to 0 — with no refcount adjustments, and pushed under
the writer mutex.  The second half (wait, destroy, return) is
`pa_asyncmsgq_send_finish`.  Returns the pushed item alongside the state. -/
def pa_asyncmsgq_send_enqueue (a : AMQState) (object : Option Nat)
    (code : Int) (userdata : Nat) (offset : Int) (chunk : Option Memchunk) :
    Option (AMQState × Item × List Effect) :=
  let s := a.nextSem
  let build : Memchunk → AMQState × Item × List Effect := fun mc =>
    let i : Item :=
      { code := code, object := object, userdata := userdata,
        free_cb := none, offset := offset, memchunk := mc,
        semaphore := some s, ret := -1 }
    ({ a with asyncq := a.asyncq ++ [i], nextSem := s + 1 }, i,
     [Effect.semNew s, Effect.mutexLock, Effect.qPush true,
      Effect.mutexUnlock])
  match chunk with
  | some ch =>
    match ch.memblock with
    | none => none
    | some _ => some (build ch)
  | none => some (build pa_memchunk_reset)

/-- Second half of `pa_asyncmsgq_send` (asyncmsgq.c lines 148-151): wait on
the item's semaphore, destroy it, and return the `ret` the consumer stored.
Sequentially the wait can only complete once the semaphore has been posted;
otherwise the sender is still blocked (`none`). -/
def pa_asyncmsgq_send_finish (a : AMQState) (s : Nat) :
    Option (Int × AMQState × List Effect) :=
  if s ∈ a.semPosted then
    some (((a.semRet.lookup s).getD (-1)),
          { a with semPosted := a.semPosted.filter (fun x => x ≠ s),
                   semRet := a.semRet.filter (fun p => p.1 ≠ s) },
          [Effect.semWait s, Effect.semFree s])
  else none

/-- Out-parameters written by `pa_asyncmsgq_get`; `none` means the caller
passed a NULL pointer for that slot so nothing was written. -/
structure GetOuts where
  code : Option Int
  object : Option (Option Nat)
  userdata : Option Nat
  offset : Option Int
  memchunk : Option Memchunk
  deriving DecidableEq

/-- `pa_asyncmsgq_get` (asyncmsgq.c lines 154-181).  The five `Bool`
parameters say whether the caller passed a non-NULL pointer for the
corresponding out-parameter; `code` must be non-NULL (asserted), the others
are optional.  Asserts `current` is empty.  Pops the asyncq; on empty
returns -1 (for `wait = false` this is the Empty case, for `wait = true`
the pop blocks and sequentially only fails if the queue is destroyed).  On
success stores the item in `current` and copies the fields out through the
non-NULL pointers. -/
def pa_asyncmsgq_get (a : AMQState) (objectPtr codePtr userdataPtr offsetPtr
    chunkPtr : Bool) (wait : Bool) : Option (Int × AMQState × GetOuts) :=
  if !codePtr then none
  else if a.current.isSome then none
  else
    match a.asyncq with
    | [] => some (-1, a, ⟨none, none, none, none, none⟩)
    | i :: rest =>
      some (0, { a with asyncq := rest, current := some i },
        { code := some i.code,
          object := if objectPtr then some i.object else none,
          userdata := if userdataPtr then some i.userdata else none,
          offset := if offsetPtr then some i.offset else none,
          memchunk := if chunkPtr then some i.memchunk else none })

/-- `pa_asyncmsgq_done` (asyncmsgq.c lines 183-206).  Asserts an item is in
flight.  Send path (semaphore present): store `ret` into the item's `ret`
field, post the semaphore, touch nothing else.  Post path: invoke `free_cb`
on `userdata` if set, unref the object if set, unref the chunk's block if
set, and return the item record to the pool (heap-free if the pool is
full).  Always clears `current`. -/
def pa_asyncmsgq_done (a : AMQState) (ret : Int) :
    Option (AMQState × List Effect) :=
  match a.current with
  | none => none
  | some cur =>
    match cur.semaphore with
    | some s =>
      some ({ a with current := none,
                     semRet := (s, ret) :: a.semRet,
                     semPosted := s :: a.semPosted },
            [Effect.retStore s ret, Effect.semPost s])
    | none =>
      let e1 : List Effect :=
        match cur.free_cb with
        | some cb => [Effect.freeCbCall cb cur.userdata]
        | none => []
      let e2 : List Effect :=
        match cur.object with
        | some o => [Effect.objRefDec o]
        | none => []
      let e3 : List Effect :=
        match cur.memchunk.memblock with
        | some b => [Effect.blockRefDec b]
        | none => []
      if a.poolFree < a.poolCap then
        some ({ a with current := none, poolFree := a.poolFree + 1 },
              e1 ++ e2 ++ e3 ++ [Effect.poolReturn])
      else
        some ({ a with current := none },
              e1 ++ e2 ++ e3 ++ [Effect.heapFree])

/-- `pa_asyncmsgq_dispatch` (asyncmsgq.c lines 248-254): if `object` is
present, invoke its `process_msg` handler (the parameter `pm`) with the
arguments and return its result; otherwise return 0.  Takes no queue
state. -/
def pa_asyncmsgq_dispatch (pm : Nat → Int → Nat → Int → Memchunk → Int)
    (object : Option Nat) (code : Int) (userdata : Nat) (offset : Int)
    (memchunk : Memchunk) : Int :=
  match object with
  | some o => pm o code userdata offset memchunk
  | none => 0

/-- Release steps of the `pa_asyncmsgq_free` loop body (asyncmsgq.c lines
82-89): unref the item's object if set, unref its chunk's block if set, and
invoke its `free_cb` on `userdata` if set — in that order. -/
def release_item_effects (i : Item) : List Effect :=
  (match i.object with
   | some o => [Effect.objRefDec o]
   | none => []) ++
  (match i.memchunk.memblock with
   | some b => [Effect.blockRefDec b]
   | none => []) ++
  (match i.free_cb with
   | some cb => [Effect.freeCbCall cb i.userdata]
   | none => [])

/-- Drain loop of `pa_asyncmsgq_free` (asyncmsgq.c lines 78-93): pop every
residual item, assert it has no reply semaphore, release its resources, and
return the record to the pool (heap-free when full). -/
def asyncmsgq_free_drain : List Item → Nat → Nat → Option (Nat × List Effect)
  | [], poolFree, _ => some (poolFree, [])
  | i :: rest, poolFree, poolCap =>
    match i.semaphore with
    | some _ => none
    | none =>
      let (poolFree1, e4) :=
        if poolFree < poolCap then (poolFree + 1, [Effect.poolReturn])
        else (poolFree, [Effect.heapFree])
      (asyncmsgq_free_drain rest poolFree1 poolCap).map
        (fun p => (p.1, release_item_effects i ++ e4 ++ p.2))

/-- `pa_asyncmsgq_free` (asyncmsgq.c lines 74-98): drain all residual items
(asserting none has a blocked sender), then free the asyncq, the mutex and
the structure itself.  Returns the final pool occupancy and the trace. -/
def pa_asyncmsgq_free (a : AMQState) : Option (Nat × List Effect) :=
  (asyncmsgq_free_drain a.asyncq a.poolFree a.poolCap).map
    (fun p => (p.1, p.2 ++ [Effect.asyncqFree, Effect.mutexFree,
                            Effect.structFree]))

/-- Modelled from the spec: `pa_asyncq_before_poll` (asyncq.c is not among
the sources) returns 0 iff the queue is verifiably empty and the fd is
armed for future pushes; nonzero means an item was observed and the
consumer must drain before polling. -/
def pa_asyncq_before_poll (q : List Item) : Int :=
  if q.isEmpty then 0 else 1

/-- `pa_asyncmsgq_wait_for` (asyncmsgq.c lines 208-228): repeatedly
`get(wait=1)`, `dispatch`, `done(ret)` until the processed message's code
equals the requested one; return 0 on match, -1 if `get` fails.  The fuel
bounds the number of iterations (any fuel exceeding the queue length is
enough); exhausting it yields `none`. -/
def pa_asyncmsgq_wait_for (pm : Nat → Int → Nat → Int → Memchunk → Int) :
    Nat → AMQState → Int → Option (Int × AMQState × List Effect)
  | 0, _, _ => none
  | fuel + 1, a, code =>
    match pa_asyncmsgq_get a true true true true true true with
    | none => none
    | some (r, a1, outs) =>
      if r ≠ 0 then some (-1, a1, [])
      else
        match outs.code, outs.object, outs.userdata, outs.offset,
              outs.memchunk with
        | some c, some o, some ud, some off, some ch =>
          let ret := pa_asyncmsgq_dispatch pm o c ud off ch
          match pa_asyncmsgq_done a1 ret with
          | none => none
          | some (a2, es2) =>
            if c = code then
              some (0, a2, Effect.dispatchCall c ret :: es2)
            else
              (pa_asyncmsgq_wait_for pm fuel a2 code).map
                (fun p => (p.1, p.2.1,
                  (Effect.dispatchCall c ret :: es2) ++ p.2.2))
        | _, _, _, _, _ => none

/-- Combined loop of `asyncmsgq_cb` (core.c lines 78-95): while
`get(wait=0)` succeeds, dispatch the message and complete it with `done`;
when `get` fails, call `before_poll` — if it returns 0 leave the loop,
otherwise restart the drain.  Fuel bounds the iterations. -/
def asyncmsgq_cb_loop (pm : Nat → Int → Nat → Int → Memchunk → Int) :
    Nat → AMQState → Option (AMQState × List Effect)
  | 0, _ => none
  | fuel + 1, a =>
    match pa_asyncmsgq_get a true true true true true false with
    | none => none
    | some (r, a1, outs) =>
      if r = 0 then
        match outs.code, outs.object, outs.userdata, outs.offset,
              outs.memchunk with
        | some c, some o, some ud, some off, some ch =>
          let ret := pa_asyncmsgq_dispatch pm o c ud off ch
          match pa_asyncmsgq_done a1 ret with
          | none => none
          | some (a2, es2) =>
            (asyncmsgq_cb_loop pm fuel a2).map
              (fun p => (p.1,
                (Effect.dispatchCall c ret :: es2) ++ p.2))
        | _, _, _, _, _ => none
      else
        let bp := pa_asyncq_before_poll a1.asyncq
        if bp = 0 then some (a1, [Effect.beforePoll bp])
        else
          (asyncmsgq_cb_loop pm fuel a1).map
            (fun p => (p.1, Effect.beforePoll bp :: p.2))

/-- `asyncmsgq_cb` (core.c lines 70-96): the core's fd-readiness callback.
Asserts the fd matches the queue's fd and the event is INPUT (the two
`Bool` parameters), calls `after_poll`, then runs the drain loop. -/
def asyncmsgq_cb (pm : Nat → Int → Nat → Int → Memchunk → Int)
    (fdMatches eventsInput : Bool) (fuel : Nat) (a : AMQState) :
    Option (AMQState × List Effect) :=
  if !fdMatches then none
  else if !eventsInput then none
  else
    (asyncmsgq_cb_loop pm fuel a).map
      (fun p => (p.1, Effect.afterPoll :: p.2))

/-- The codes of the `dispatchCall` events of a trace, in order. -/
def dispatchedCodes (es : List Effect) : List Int :=
  es.filterMap (fun e =>
    match e with
    | Effect.dispatchCall c _ => some c
    | _ => none)

/-! ## Shared concrete example states (used by the witnesses) -/

/-- A concrete chunk over block 4. -/
def exChunk : Memchunk := ⟨some 4, 1, 8⟩

/-- A concrete post-path item (object 2, free_cb 3, chunk over block 4). -/
def exPostItem : Item := ⟨7, some 2, 5, some 3, 42, exChunk, none, 0⟩

/-- A concrete send-path item (semaphore 0). -/
def exSendItem : Item := ⟨3, some 2, 5, none, 0, pa_memchunk_reset, some 0, -1⟩

/-- An idle queue state with an empty asyncq. -/
def exIdle : AMQState := ⟨[], none, 1, 4, 0, [], []⟩

/-- A state with the post-path item in flight. -/
def exInFlightPost : AMQState := ⟨[], some exPostItem, 1, 4, 1, [], []⟩

/-- A state with the send-path item in flight. -/
def exInFlightSend : AMQState := ⟨[], some exSendItem, 1, 4, 1, [], []⟩

/-- A state with one post-path item queued. -/
def exQueued : AMQState := ⟨[exPostItem], none, 1, 4, 1, [], []⟩

/-- A state with one send-path item still queued (a blocked sender). -/
def exQueuedSend : AMQState := ⟨[exSendItem], none, 1, 4, 1, [], []⟩

/-! ## Helper lemmas about effect counting -/

theorem ecount_nil (e : Effect) : ecount e [] = 0 := rfl

theorem ecount_append (e : Effect) (l1 l2 : List Effect) :
    ecount e (l1 ++ l2) = ecount e l1 + ecount e l2 := by
  simp [ecount, List.filter_append]

theorem ecount_singleton (e x : Effect) :
    ecount e [x] = if x = e then 1 else 0 := by
  by_cases h : x = e <;> simp [ecount, h]

theorem ecount_cons (e x : Effect) (l : List Effect) :
    ecount e (x :: l) = (if x = e then 1 else 0) + ecount e l := by
  by_cases h : x = e <;> simp [ecount, List.filter_cons, h, Nat.add_comm]

/-! ## Claims -/

/-- C9: `pa_asyncmsgq_dispatch` returns the result of invoking the object's
`process_msg` handler with the given arguments when the object is present,
and returns 0 when it is absent; by its type it takes no queue state. -/
theorem dispatch_spec (pm : Nat → Int → Nat → Int → Memchunk → Int)
    (o : Nat) (code : Int) (ud : Nat) (off : Int) (ch : Memchunk) :
    pa_asyncmsgq_dispatch pm (some o) code ud off ch = pm o code ud off ch
    ∧ pa_asyncmsgq_dispatch pm none code ud off ch = 0 :=
  ⟨rfl, rfl⟩

/-- C1: completing an in-flight item without a reply semaphore via
`pa_asyncmsgq_done` releases its resources exactly once: `free_cb` is
invoked once on `userdata` iff set, the object's refcount is decremented
once iff set, the chunk's block refcount is decremented once iff set, and
the record goes back to the pool (heap-free when the pool is full); the
item leaves the in-flight slot. -/
theorem done_post_path_releases_once (a : AMQState) (i : Item) (r : Int)
    (hcur : a.current = some i) (hsem : i.semaphore = none) :
    ∃ a' es, pa_asyncmsgq_done a r = some (a', es)
      ∧ (∀ cb ud, ecount (Effect.freeCbCall cb ud) es
            = if i.free_cb = some cb ∧ i.userdata = ud then 1 else 0)
      ∧ (∀ o, ecount (Effect.objRefDec o) es
            = if i.object = some o then 1 else 0)
      ∧ (∀ b, ecount (Effect.blockRefDec b) es
            = if i.memchunk.memblock = some b then 1 else 0)
      ∧ (if a.poolFree < a.poolCap
          then ecount Effect.poolReturn es = 1 ∧ ecount Effect.heapFree es = 0
               ∧ a'.poolFree = a.poolFree + 1
          else ecount Effect.heapFree es = 1 ∧ ecount Effect.poolReturn es = 0
               ∧ a'.poolFree = a.poolFree)
      ∧ a'.current = none := by
  simp only [pa_asyncmsgq_done, hcur, hsem]
  rcases hfc : i.free_cb with _ | cb0 <;>
    rcases hob : i.object with _ | o0 <;>
    rcases hmb : i.memchunk.memblock with _ | b0 <;>
    split_ifs with hp <;>
    refine ⟨_, _, rfl, ?_, ?_, ?_, ⟨?_, ?_, rfl⟩, rfl⟩ <;>
    intros <;>
    simp [ecount_cons, ecount_nil, hfc, hob, hmb] <;>
    (try simp_all)

/-- Witness for C1 at a concrete in-flight post-path item. -/
theorem done_post_path_releases_once_witness :
    ∃ a' es, pa_asyncmsgq_done exInFlightPost 0 = some (a', es)
      ∧ (∀ cb ud, ecount (Effect.freeCbCall cb ud) es
            = if exPostItem.free_cb = some cb ∧ exPostItem.userdata = ud
              then 1 else 0)
      ∧ (∀ o, ecount (Effect.objRefDec o) es
            = if exPostItem.object = some o then 1 else 0)
      ∧ (∀ b, ecount (Effect.blockRefDec b) es
            = if exPostItem.memchunk.memblock = some b then 1 else 0)
      ∧ (if exInFlightPost.poolFree < exInFlightPost.poolCap
          then ecount Effect.poolReturn es = 1 ∧ ecount Effect.heapFree es = 0
               ∧ a'.poolFree = exInFlightPost.poolFree + 1
          else ecount Effect.heapFree es = 1 ∧ ecount Effect.poolReturn es = 0
               ∧ a'.poolFree = exInFlightPost.poolFree)
      ∧ a'.current = none :=
  done_post_path_releases_once exInFlightPost exPostItem 0 rfl rfl

/-- Helper: completing an in-flight item that carries a reply semaphore
stores `ret` keyed by the semaphore, posts the semaphore, changes nothing
else, and lets the blocked sender finish with exactly that `ret`. -/
theorem done_send_path (b : AMQState) (i : Item) (s : Nat) (r : Int)
    (hcur : b.current = some i) (hs : i.semaphore = some s) :
    ∃ b', pa_asyncmsgq_done b r
            = some (b', [Effect.retStore s r, Effect.semPost s])
      ∧ b'.semRet.lookup s = some r
      ∧ s ∈ b'.semPosted
      ∧ b'.asyncq = b.asyncq ∧ b'.poolFree = b.poolFree
      ∧ b'.poolCap = b.poolCap ∧ b'.nextSem = b.nextSem
      ∧ b'.current = none
      ∧ pa_asyncmsgq_send_finish b' s
          = some (r,
              { b' with
                  semPosted := b'.semPosted.filter (fun x => x ≠ s),
                  semRet := b'.semRet.filter (fun p => p.1 ≠ s) },
              [Effect.semWait s, Effect.semFree s]) := by
  simp only [pa_asyncmsgq_done, hcur, hs]
  refine ⟨_, rfl, ?_, ?_, rfl, rfl, rfl, rfl, rfl, ?_⟩
  · simp [List.lookup]
  · simp
  · simp [pa_asyncmsgq_send_finish, List.lookup]

/-- C2: if the consumer completes a sent item with `pa_asyncmsgq_done ret`,
the stored reply equals `ret` and the blocked `pa_asyncmsgq_send` finishes
by waiting on the semaphore, destroying it, and returning exactly that
stored value.  The item built by send carries a fresh semaphore and
`ret = -1` initially. -/
theorem send_roundtrip (a b : AMQState) (object : Option Nat) (code : Int)
    (ud : Nat) (off : Int) (chunk : Option Memchunk) (a1 : AMQState)
    (i : Item) (es : List Effect) (r : Int)
    (hsend : pa_asyncmsgq_send_enqueue a object code ud off chunk
               = some (a1, i, es))
    (hcur : b.current = some i) :
    i.semaphore = some a.nextSem ∧ i.ret = -1
    ∧ ∃ b', pa_asyncmsgq_done b r
              = some (b', [Effect.retStore a.nextSem r,
                           Effect.semPost a.nextSem])
        ∧ b'.semRet.lookup a.nextSem = some r
        ∧ a.nextSem ∈ b'.semPosted
        ∧ ∃ b'' , pa_asyncmsgq_send_finish b' a.nextSem
              = some (r, b'', [Effect.semWait a.nextSem,
                               Effect.semFree a.nextSem]) := by
  have hsi : i.semaphore = some a.nextSem ∧ i.ret = -1 := by
    rcases chunk with _ | ch
    · simp only [pa_asyncmsgq_send_enqueue, Option.some.injEq,
        Prod.mk.injEq] at hsend
      obtain ⟨-, hi, -⟩ := hsend
      subst hi
      exact ⟨rfl, rfl⟩
    · rcases hmb : ch.memblock with _ | blk
      · simp [pa_asyncmsgq_send_enqueue, hmb] at hsend
      · simp only [pa_asyncmsgq_send_enqueue, hmb, Option.some.injEq,
          Prod.mk.injEq] at hsend
        obtain ⟨-, hi, -⟩ := hsend
        subst hi
        exact ⟨rfl, rfl⟩
  obtain ⟨hs, hr⟩ := hsi
  obtain ⟨b', hdone, hlook, hmem, -, -, -, -, -, hfin⟩ :=
    done_send_path b i a.nextSem r hcur hs
  exact ⟨hs, hr, b', hdone, hlook, hmem, _, hfin⟩

/-- C3: on the send path the queue performs no refcount traffic and frees
nothing: the item stores the object and chunk as given, has no `free_cb`,
and the enqueue trace holds only the semaphore creation and the push under
the mutex; completing an in-flight item that has a reply semaphore emits
only the `ret` store and the semaphore post, leaving the queue, pool and
caller-owned resources untouched. -/
theorem send_path_frame (a b : AMQState) (object : Option Nat) (code : Int)
    (ud : Nat) (off : Int) (chunk : Option Memchunk) (a1 : AMQState)
    (i j : Item) (es : List Effect) (s : Nat) (r : Int)
    (hsend : pa_asyncmsgq_send_enqueue a object code ud off chunk
               = some (a1, i, es))
    (hcur : b.current = some j) (hjs : j.semaphore = some s) :
    i.object = object ∧ i.free_cb = none ∧ i.userdata = ud
    ∧ i.memchunk = (match chunk with
                    | some ch => ch
                    | none => pa_memchunk_reset)
    ∧ es = [Effect.semNew a.nextSem, Effect.mutexLock, Effect.qPush true,
            Effect.mutexUnlock]
    ∧ a1.asyncq = a.asyncq ++ [i] ∧ a1.poolFree = a.poolFree
    ∧ a1.current = a.current
    ∧ ∃ b', pa_asyncmsgq_done b r
              = some (b', [Effect.retStore s r, Effect.semPost s])
        ∧ b'.asyncq = b.asyncq ∧ b'.poolFree = b.poolFree
        ∧ b'.poolCap = b.poolCap ∧ b'.current = none := by
  obtain ⟨b', hdone, -, -, hq, hpf, hpc, -, hc, -⟩ :=
    done_send_path b j s r hcur hjs
  rcases chunk with _ | ch
  · simp only [pa_asyncmsgq_send_enqueue, Option.some.injEq,
      Prod.mk.injEq] at hsend
    obtain ⟨ha1, hi, hes⟩ := hsend
    subst hi
    subst ha1
    subst hes
    exact ⟨rfl, rfl, rfl, rfl, rfl, rfl, rfl, rfl,
           b', hdone, hq, hpf, hpc, hc⟩
  · rcases hmb : ch.memblock with _ | blk
    · simp [pa_asyncmsgq_send_enqueue, hmb] at hsend
    · simp only [pa_asyncmsgq_send_enqueue, hmb, Option.some.injEq,
        Prod.mk.injEq] at hsend
      obtain ⟨ha1, hi, hes⟩ := hsend
      subst hi
      subst ha1
      subst hes
      exact ⟨rfl, rfl, rfl, rfl, rfl, rfl, rfl, rfl,
             b', hdone, hq, hpf, hpc, hc⟩

/-- C4: the consumer-side state machine: `get` asserts no item is in
flight and on an empty queue fails leaving the state unchanged; on success
it moves the head item into the in-flight slot; `done` asserts an item is
in flight and always clears the slot. -/
theorem consumer_state_machine (a : AMQState) (r : Int) (w : Bool) :
    (a.current.isSome → pa_asyncmsgq_get a true true true true true w = none)
    ∧ (a.current = none → a.asyncq = [] →
        pa_asyncmsgq_get a true true true true true w
          = some (-1, a, ⟨none, none, none, none, none⟩))
    ∧ (∀ i rest, a.current = none → a.asyncq = i :: rest →
        pa_asyncmsgq_get a true true true true true w
          = some (0, { a with asyncq := rest, current := some i },
              ⟨some i.code, some i.object, some i.userdata, some i.offset,
               some i.memchunk⟩))
    ∧ (a.current = none → pa_asyncmsgq_done a r = none)
    ∧ (∀ i, a.current = some i →
        ∃ a' es, pa_asyncmsgq_done a r = some (a', es)
          ∧ a'.current = none) := by
  refine ⟨?_, ?_, ?_, ?_, ?_⟩
  · intro h
    simp [pa_asyncmsgq_get, h]
  · intro hc hq
    simp [pa_asyncmsgq_get, hc, hq]
  · intro i rest hc hq
    simp [pa_asyncmsgq_get, hc, hq]
  · intro hc
    simp [pa_asyncmsgq_done, hc]
  · intro i hc
    simp only [pa_asyncmsgq_done, hc]
    rcases hs : i.semaphore with _ | s
    · split_ifs with hp <;> exact ⟨_, _, rfl, rfl⟩
    · exact ⟨_, _, rfl, rfl⟩

/-- Witness for C4: `get` while in flight and `done` while idle both fail
the assertion at concrete states. -/
theorem consumer_state_machine_witness :
    pa_asyncmsgq_get exInFlightPost true true true true true false = none
    ∧ pa_asyncmsgq_done exIdle 0 = none :=
  ⟨(consumer_state_machine exInFlightPost 0 false).1 rfl,
   (consumer_state_machine exIdle 0 false).2.2.2.1 rfl⟩

/-- C10: `pa_asyncmsgq_get` tolerates NULL out-pointers for object,
userdata, offset and chunk (those fields are simply not copied out and the
call still succeeds), while a NULL code pointer fails the assertion; on
success every non-NULL out-parameter receives the popped item's field. -/
theorem get_null_out_params (a : AMQState) (i : Item) (rest : List Item)
    (op up fp kp w : Bool)
    (hcur : a.current = none) (hq : a.asyncq = i :: rest) :
    pa_asyncmsgq_get a op false up fp kp w = none
    ∧ pa_asyncmsgq_get a op true up fp kp w
        = some (0, { a with asyncq := rest, current := some i },
            { code := some i.code,
              object := if op then some i.object else none,
              userdata := if up then some i.userdata else none,
              offset := if fp then some i.offset else none,
              memchunk := if kp then some i.memchunk else none }) := by
  constructor
  · simp [pa_asyncmsgq_get]
  · simp [pa_asyncmsgq_get, hcur, hq]

/-- Witness for C10 with every optional out-pointer NULL. -/
theorem get_null_out_params_witness :
    pa_asyncmsgq_get exQueued false false false false false false = none
    ∧ pa_asyncmsgq_get exQueued false true false false false false
        = some (0, { exQueued with asyncq := [], current := some exPostItem },
            { code := some exPostItem.code, object := none, userdata := none,
              offset := none, memchunk := none }) := by
  have h := get_null_out_params exQueued exPostItem [] false false false
    false false rfl rfl
  simpa using h

/-- Witness for C2: a concrete send of code 3 answered with 99. -/
theorem send_roundtrip_witness :
    ∃ b', pa_asyncmsgq_done exInFlightSend 99
            = some (b', [Effect.retStore 0 99, Effect.semPost 0])
      ∧ b'.semRet.lookup 0 = some 99
      ∧ 0 ∈ b'.semPosted
      ∧ ∃ b'', pa_asyncmsgq_send_finish b' 0
            = some (99, b'', [Effect.semWait 0, Effect.semFree 0]) :=
  (send_roundtrip exIdle exInFlightSend (some 2) 3 5 0 none
      { exIdle with asyncq := [exSendItem], nextSem := 1 }
      exSendItem
      [Effect.semNew 0, Effect.mutexLock, Effect.qPush true,
       Effect.mutexUnlock] 99 rfl rfl).2.2

/-- Witness for C3: completing the concrete sent item leaves queue and pool
untouched. -/
theorem send_path_frame_witness :
    ∃ b', pa_asyncmsgq_done exInFlightSend 7
            = some (b', [Effect.retStore 0 7, Effect.semPost 0])
      ∧ b'.asyncq = exInFlightSend.asyncq
      ∧ b'.poolFree = exInFlightSend.poolFree
      ∧ b'.poolCap = exInFlightSend.poolCap
      ∧ b'.current = none :=
  (send_path_frame exIdle exInFlightSend (some 2) 3 5 0 none
      { exIdle with asyncq := [exSendItem], nextSem := 1 }
      exSendItem exSendItem
      [Effect.semNew 0, Effect.mutexLock, Effect.qPush true,
       Effect.mutexUnlock] 0 7 rfl rfl rfl).2.2.2.2.2.2.2.2

/-- C6: `pa_asyncmsgq_post` asserts the backing block of a present chunk;
otherwise it acquires an item (pool or heap), stores all fields with
`reply_sem` cleared, increments the object's refcount iff present and the
chunk block's refcount iff present (each exactly once), appends the item to
the queue under the writer mutex with `wait = true`, and cannot fail. -/
theorem post_spec (a : AMQState) (object : Option Nat) (code : Int)
    (ud : Nat) (off : Int) (chunk : Option Memchunk) (free_cb : Option Nat) :
    (∀ ch, chunk = some ch → ch.memblock = none →
      pa_asyncmsgq_post a object code ud off chunk free_cb = none)
    ∧ ((∀ ch, chunk = some ch → ch.memblock.isSome) →
      ∃ a' i es, pa_asyncmsgq_post a object code ud off chunk free_cb
            = some (a', es)
        ∧ a'.asyncq = a.asyncq ++ [i]
        ∧ i.code = code ∧ i.object = object ∧ i.userdata = ud
        ∧ i.free_cb = free_cb ∧ i.offset = off ∧ i.semaphore = none
        ∧ i.memchunk = (match chunk with
                        | some ch => ch
                        | none => pa_memchunk_reset)
        ∧ (∀ o, ecount (Effect.objRefInc o) es
              = if object = some o then 1 else 0)
        ∧ (∀ b, ecount (Effect.blockRefInc b) es
              = if chunk.bind Memchunk.memblock = some b then 1 else 0)
        ∧ (if 0 < a.poolFree
            then ecount Effect.poolAcquire es = 1
                 ∧ a'.poolFree = a.poolFree - 1
            else ecount Effect.heapAlloc es = 1 ∧ a'.poolFree = a.poolFree)
        ∧ (∃ es0, es = es0 ++ [Effect.mutexLock, Effect.qPush true,
                               Effect.mutexUnlock])
        ∧ a'.current = a.current) := by
  constructor
  · intro ch hch hmb
    subst hch
    simp [pa_asyncmsgq_post, hmb]
  · intro hok
    rcases hch : chunk with _ | ch
    · rcases hob : object with _ | o0 <;>
        by_cases hp : 0 < a.poolFree <;>
        simp only [pa_asyncmsgq_post, hob, hp, if_true, if_false,
          ite_true, ite_false] <;>
        refine ⟨_, _, _, rfl, rfl, rfl, rfl, rfl, rfl, rfl, rfl, rfl,
          ?_, ?_, ?_, ⟨_, rfl⟩, rfl⟩ <;>
        intros <;>
        simp [ecount_cons, ecount_nil, hp]
    · have hbs := hok ch hch
      rcases hmb : ch.memblock with _ | blk
      · rw [hmb] at hbs
        simp at hbs
      · rcases hob : object with _ | o0 <;>
          by_cases hp : 0 < a.poolFree <;>
          simp only [pa_asyncmsgq_post, hob, hmb, hp, if_true, if_false,
            ite_true, ite_false] <;>
          refine ⟨_, _, _, rfl, rfl, rfl, rfl, rfl, rfl, rfl, rfl, rfl,
            ?_, ?_, ?_, ⟨_, rfl⟩, rfl⟩ <;>
          intros <;>
          simp [ecount_cons, ecount_nil, hp, hmb]

/-- Witness for C6: a concrete post with object, chunk and free_cb. -/
theorem post_spec_witness :
    ∃ a' i es, pa_asyncmsgq_post exIdle (some 2) 7 5 42 (some exChunk)
          (some 3) = some (a', es)
      ∧ a'.asyncq = exIdle.asyncq ++ [i]
      ∧ i.code = 7 ∧ i.object = some 2 ∧ i.userdata = 5
      ∧ i.free_cb = some 3 ∧ i.offset = 42 ∧ i.semaphore = none
      ∧ i.memchunk = (match (some exChunk : Option Memchunk) with
                      | some ch => ch
                      | none => pa_memchunk_reset)
      ∧ (∀ o, ecount (Effect.objRefInc o) es
            = if (some 2 : Option Nat) = some o then 1 else 0)
      ∧ (∀ b, ecount (Effect.blockRefInc b) es
            = if (some exChunk : Option Memchunk).bind Memchunk.memblock
                 = some b then 1 else 0)
      ∧ (if 0 < exIdle.poolFree
          then ecount Effect.poolAcquire es = 1
               ∧ a'.poolFree = exIdle.poolFree - 1
          else ecount Effect.heapAlloc es = 1
               ∧ a'.poolFree = exIdle.poolFree)
      ∧ (∃ es0, es = es0 ++ [Effect.mutexLock, Effect.qPush true,
                             Effect.mutexUnlock])
      ∧ a'.current = exIdle.current :=
  (post_spec exIdle (some 2) 7 5 42 (some exChunk) (some 3)).2
    (fun ch h => by cases h; rfl)

/-- Helper: the release steps of the free-loop body touch each resource of
the item exactly once and neither the pool nor the heap. -/
theorem release_item_effects_count (i : Item) :
    (∀ o, ecount (Effect.objRefDec o) (release_item_effects i)
        = if i.object = some o then 1 else 0)
    ∧ (∀ b, ecount (Effect.blockRefDec b) (release_item_effects i)
        = if i.memchunk.memblock = some b then 1 else 0)
    ∧ (∀ cb ud, ecount (Effect.freeCbCall cb ud) (release_item_effects i)
        = if i.free_cb = some cb ∧ i.userdata = ud then 1 else 0)
    ∧ ecount Effect.poolReturn (release_item_effects i) = 0
    ∧ ecount Effect.heapFree (release_item_effects i) = 0 := by
  rcases hob : i.object with _ | o0 <;>
  rcases hmb : i.memchunk.memblock with _ | b0 <;>
  rcases hfc : i.free_cb with _ | cb0 <;>
  refine ⟨?_, ?_, ?_, ?_, ?_⟩ <;>
  intros <;>
  simp [release_item_effects, ecount_cons, ecount_nil, ecount_append,
    hob, hmb, hfc] <;>
  (try simp_all)

/-- Helper: if any residual item still carries a reply semaphore, the free
drain hits the assertion. -/
theorem free_drain_none (q : List Item) :
    ∀ pf pc, (∃ i ∈ q, i.semaphore.isSome) →
      asyncmsgq_free_drain q pf pc = none := by
  induction q with
  | nil =>
    intro pf pc h
    simp at h
  | cons i rest ih =>
    intro pf pc h
    rcases hs : i.semaphore with _ | s
    · have hrest : ∃ j ∈ rest, j.semaphore.isSome := by
        rcases h with ⟨j, hj, hjs⟩
        rcases List.mem_cons.mp hj with h1 | h2
        · subst h1
          rw [hs] at hjs
          simp at hjs
        · exact ⟨j, h2, hjs⟩
      have hrec : ∀ pf1, asyncmsgq_free_drain rest pf1 pc = none :=
        fun pf1 => ih pf1 pc hrest
      simp [asyncmsgq_free_drain, hs, hrec]
    · simp [asyncmsgq_free_drain, hs]

/-- Helper: if no residual item carries a reply semaphore, the free drain
succeeds and releases each item's resources exactly once, retiring every
record to the pool or the heap. -/
theorem free_drain_spec (q : List Item) :
    ∀ pf pc, (∀ i ∈ q, i.semaphore = none) →
    ∃ pf' es, asyncmsgq_free_drain q pf pc = some (pf', es)
      ∧ (∀ o, ecount (Effect.objRefDec o) es
            = (q.filter (fun i => i.object = some o)).length)
      ∧ (∀ b, ecount (Effect.blockRefDec b) es
            = (q.filter (fun i => i.memchunk.memblock = some b)).length)
      ∧ (∀ cb ud, ecount (Effect.freeCbCall cb ud) es
            = (q.filter (fun i => i.free_cb = some cb
                                  ∧ i.userdata = ud)).length)
      ∧ ecount Effect.poolReturn es + ecount Effect.heapFree es
            = q.length := by
  induction q with
  | nil =>
    intro pf pc _
    exact ⟨pf, [], rfl, by simp [ecount_nil], by simp [ecount_nil],
      by simp [ecount_nil], by simp [ecount_nil]⟩
  | cons i rest ih =>
    intro pf pc hall
    have hi : i.semaphore = none := hall i (List.mem_cons_self i rest)
    have hrest : ∀ j ∈ rest, j.semaphore = none :=
      fun j hj => hall j (List.mem_cons_of_mem i hj)
    obtain ⟨hc1, hc2, hc3, hc4, hc5⟩ := release_item_effects_count i
    by_cases hp : pf < pc
    · obtain ⟨pf', es, hd, h1, h2, h3, h4⟩ := ih (pf + 1) pc hrest
      refine ⟨pf', release_item_effects i ++ [Effect.poolReturn] ++ es,
        ?_, ?_, ?_, ?_, ?_⟩
      · simp [asyncmsgq_free_drain, hi, hp, hd]
      · intro o
        simp [ecount_append, ecount_cons, ecount_nil, hc1 o, h1 o,
          List.filter_cons] <;>
        (try split_ifs) <;> (try simp_all) <;> omega
      · intro b
        simp [ecount_append, ecount_cons, ecount_nil, hc2 b, h2 b,
          List.filter_cons] <;>
        (try split_ifs) <;> (try simp_all) <;> omega
      · intro cb ud
        simp [ecount_append, ecount_cons, ecount_nil, hc3 cb ud, h3 cb ud,
          List.filter_cons] <;>
        (try split_ifs) <;> (try simp_all) <;> omega
      · simp [ecount_append, ecount_cons, ecount_nil, hc4, hc5, h4] <;>
        omega
    · obtain ⟨pf', es, hd, h1, h2, h3, h4⟩ := ih pf pc hrest
      refine ⟨pf', release_item_effects i ++ [Effect.heapFree] ++ es,
        ?_, ?_, ?_, ?_, ?_⟩
      · simp [asyncmsgq_free_drain, hi, hp, hd]
      · intro o
        simp [ecount_append, ecount_cons, ecount_nil, hc1 o, h1 o,
          List.filter_cons] <;>
        (try split_ifs) <;> (try simp_all) <;> omega
      · intro b
        simp [ecount_append, ecount_cons, ecount_nil, hc2 b, h2 b,
          List.filter_cons] <;>
        (try split_ifs) <;> (try simp_all) <;> omega
      · intro cb ud
        simp [ecount_append, ecount_cons, ecount_nil, hc3 cb ud, h3 cb ud,
          List.filter_cons] <;>
        (try split_ifs) <;> (try simp_all) <;> omega
      · simp [ecount_append, ecount_cons, ecount_nil, hc4, hc5, h4] <;>
        omega

/-- C7: `pa_asyncmsgq_free` fails fast (assert) if any residual item has a
reply semaphore (a blocked sender); otherwise it drains every residual
item, releasing each item's object, chunk block and `free_cb`/`userdata`
exactly once and retiring every record, before freeing the asyncq, the
mutex and the structure. -/
theorem free_spec (a : AMQState) :
    ((∃ i ∈ a.asyncq, i.semaphore.isSome) → pa_asyncmsgq_free a = none)
    ∧ ((∀ i ∈ a.asyncq, i.semaphore = none) →
      ∃ pf es, pa_asyncmsgq_free a
            = some (pf, es ++ [Effect.asyncqFree, Effect.mutexFree,
                               Effect.structFree])
        ∧ (∀ o, ecount (Effect.objRefDec o) es
              = (a.asyncq.filter (fun i => i.object = some o)).length)
        ∧ (∀ b, ecount (Effect.blockRefDec b) es
              = (a.asyncq.filter
                  (fun i => i.memchunk.memblock = some b)).length)
        ∧ (∀ cb ud, ecount (Effect.freeCbCall cb ud) es
              = (a.asyncq.filter (fun i => i.free_cb = some cb
                                           ∧ i.userdata = ud)).length)
        ∧ ecount Effect.poolReturn es + ecount Effect.heapFree es
              = a.asyncq.length) := by
  constructor
  · intro h
    simp [pa_asyncmsgq_free,
      free_drain_none a.asyncq a.poolFree a.poolCap h]
  · intro hall
    obtain ⟨pf', es, hd, h1, h2, h3, h4⟩ :=
      free_drain_spec a.asyncq a.poolFree a.poolCap hall
    exact ⟨pf', es, by simp [pa_asyncmsgq_free, hd], h1, h2, h3, h4⟩

/-- Witness for C7: freeing with a blocked sender queued aborts; freeing
with one residual post releases its resources. -/
theorem free_spec_witness :
    pa_asyncmsgq_free exQueuedSend = none
    ∧ ∃ pf es, pa_asyncmsgq_free exQueued
          = some (pf, es ++ [Effect.asyncqFree, Effect.mutexFree,
                             Effect.structFree])
      ∧ (∀ o, ecount (Effect.objRefDec o) es
            = (exQueued.asyncq.filter (fun i => i.object = some o)).length)
      ∧ (∀ b, ecount (Effect.blockRefDec b) es
            = (exQueued.asyncq.filter
                (fun i => i.memchunk.memblock = some b)).length)
      ∧ (∀ cb ud, ecount (Effect.freeCbCall cb ud) es
            = (exQueued.asyncq.filter (fun i => i.free_cb = some cb
                                               ∧ i.userdata = ud)).length)
      ∧ ecount Effect.poolReturn es + ecount Effect.heapFree es
            = exQueued.asyncq.length :=
  ⟨(free_spec exQueuedSend).1 ⟨exSendItem, by simp [exQueuedSend], rfl⟩,
   (free_spec exQueued).2 (by decide)⟩

/-- Helper: completing any in-flight item succeeds, clears the in-flight
slot, preserves the queue, and emits no dispatch events. -/
theorem done_shape (a : AMQState) (i : Item) (r : Int)
    (hcur : a.current = some i) :
    ∃ a' es, pa_asyncmsgq_done a r = some (a', es)
      ∧ a'.current = none ∧ a'.asyncq = a.asyncq
      ∧ dispatchedCodes es = [] := by
  simp only [pa_asyncmsgq_done, hcur]
  rcases hs : i.semaphore with _ | s
  · rcases hfc : i.free_cb with _ | cb <;>
    rcases hob : i.object with _ | o <;>
    rcases hmb : i.memchunk.memblock with _ | b <;>
    split_ifs with hp <;>
    exact ⟨_, _, rfl, rfl, rfl, by simp [dispatchedCodes]⟩
  · exact ⟨_, _, rfl, rfl, rfl, by simp [dispatchedCodes]⟩

theorem dispatchedCodes_append (l1 l2 : List Effect) :
    dispatchedCodes (l1 ++ l2)
      = dispatchedCodes l1 ++ dispatchedCodes l2 := by
  simp [dispatchedCodes, List.filterMap_append]

theorem dispatchedCodes_cons_dispatch (c r : Int) (l : List Effect) :
    dispatchedCodes (Effect.dispatchCall c r :: l)
      = c :: dispatchedCodes l := by
  simp [dispatchedCodes]

/-- Helper: behaviour of the `pa_asyncmsgq_wait_for` loop over the queue
contents, by induction on the queue. -/
theorem wait_for_go (pm : Nat → Int → Nat → Int → Memchunk → Int)
    (code : Int) :
    ∀ q : List Item, ∀ a : AMQState, ∀ fuel : Nat,
      a.asyncq = q → a.current = none → q.length < fuel →
      ((∃ i ∈ q, i.code = code) →
        ∃ a' es, pa_asyncmsgq_wait_for pm fuel a code = some (0, a', es)
          ∧ dispatchedCodes es
              = (q.takeWhile (fun i => i.code ≠ code)).map Item.code
                ++ [code])
      ∧ ((∀ i ∈ q, i.code ≠ code) →
        ∃ a' es, pa_asyncmsgq_wait_for pm fuel a code = some (-1, a', es)
          ∧ dispatchedCodes es = q.map Item.code) := by
  intro q
  induction q with
  | nil =>
    intro a fuel hq hcur hfuel
    obtain ⟨f, rfl⟩ : ∃ f, fuel = f + 1 := ⟨fuel - 1, by omega⟩
    constructor
    · intro h
      simp at h
    · intro _
      refine ⟨a, [], ?_, by simp [dispatchedCodes]⟩
      simp [pa_asyncmsgq_wait_for, pa_asyncmsgq_get, hq, hcur]
  | cons i rest ih =>
    intro a fuel hq hcur hfuel
    obtain ⟨f, rfl⟩ : ∃ f, fuel = f + 1 := ⟨fuel - 1, by omega⟩
    have hget : pa_asyncmsgq_get a true true true true true true
        = some (0, { a with asyncq := rest, current := some i },
            ⟨some i.code, some i.object, some i.userdata, some i.offset,
             some i.memchunk⟩) := by
      simp [pa_asyncmsgq_get, hcur, hq]
    obtain ⟨a2, es2, hdone, hc2, hq2, hdc2⟩ :=
      done_shape { a with asyncq := rest, current := some i } i
        (pa_asyncmsgq_dispatch pm i.object i.code i.userdata i.offset
          i.memchunk) rfl
    have hq2' : a2.asyncq = rest := hq2
    have hfuel' : rest.length < f := by
      simp [List.length_cons] at hfuel
      omega
    have hstep : pa_asyncmsgq_wait_for pm (f + 1) a code
        = (if i.code = code
           then some (0, a2, Effect.dispatchCall i.code
              (pa_asyncmsgq_dispatch pm i.object i.code i.userdata i.offset
                i.memchunk) :: es2)
           else (pa_asyncmsgq_wait_for pm f a2 code).map
              (fun p => (p.1, p.2.1,
                (Effect.dispatchCall i.code
                  (pa_asyncmsgq_dispatch pm i.object i.code i.userdata
                    i.offset i.memchunk) :: es2) ++ p.2.2))) := by
      simp [pa_asyncmsgq_wait_for, hget, hdone]
    by_cases hic : i.code = code
    · constructor
      · intro _
        refine ⟨a2, Effect.dispatchCall i.code
            (pa_asyncmsgq_dispatch pm i.object i.code i.userdata i.offset
              i.memchunk) :: es2, ?_, ?_⟩
        · rw [hstep, if_pos hic]
        · simp [dispatchedCodes_cons_dispatch, hdc2, hic,
            List.takeWhile_cons]
      · intro hnone
        exact absurd hic (hnone i (List.mem_cons_self i rest))
    · constructor
      · intro hex
        have hex' : ∃ j ∈ rest, j.code = code := by
          rcases hex with ⟨j, hj, hjc⟩
          rcases List.mem_cons.mp hj with h1 | h2
          · subst h1
            exact absurd hjc hic
          · exact ⟨j, h2, hjc⟩
        obtain ⟨a', es', hrun, hdc⟩ := (ih a2 f hq2' hc2 hfuel').1 hex'
        refine ⟨a', Effect.dispatchCall i.code
            (pa_asyncmsgq_dispatch pm i.object i.code i.userdata i.offset
              i.memchunk) :: (es2 ++ es'), ?_, ?_⟩
        · rw [hstep, if_neg hic, hrun]
          rfl
        · simp [dispatchedCodes_append, dispatchedCodes_cons_dispatch,
            hdc2, hdc, List.takeWhile_cons, hic]
      · intro hnone
        have hnone' : ∀ j ∈ rest, j.code ≠ code :=
          fun j hj => hnone j (List.mem_cons_of_mem i hj)
        obtain ⟨a', es', hrun, hdc⟩ := (ih a2 f hq2' hc2 hfuel').2 hnone'
        refine ⟨a', Effect.dispatchCall i.code
            (pa_asyncmsgq_dispatch pm i.object i.code i.userdata i.offset
              i.memchunk) :: (es2 ++ es'), ?_, ?_⟩
        · rw [hstep, if_neg hic, hrun]
          rfl
        · simp [dispatchedCodes_append, dispatchedCodes_cons_dispatch,
            hdc2, hdc]

/-- C5: `pa_asyncmsgq_wait_for code` dispatches the queued messages in
order, one `get`/`dispatch`/`done` cycle each, and returns 0 exactly when
it reaches a message with the requested code, having dispatched every
earlier message exactly once; if no such message arrives before `get`
fails, it returns -1, having dispatched everything. -/
theorem wait_for_spec (pm : Nat → Int → Nat → Int → Memchunk → Int)
    (a : AMQState) (code : Int) (fuel : Nat)
    (hcur : a.current = none) (hfuel : a.asyncq.length < fuel) :
    ((∃ i ∈ a.asyncq, i.code = code) →
      ∃ a' es, pa_asyncmsgq_wait_for pm fuel a code = some (0, a', es)
        ∧ dispatchedCodes es
            = (a.asyncq.takeWhile (fun i => i.code ≠ code)).map Item.code
              ++ [code])
    ∧ ((∀ i ∈ a.asyncq, i.code ≠ code) →
      ∃ a' es, pa_asyncmsgq_wait_for pm fuel a code = some (-1, a', es)
        ∧ dispatchedCodes es = a.asyncq.map Item.code) :=
  wait_for_go pm code a.asyncq a fuel rfl hcur hfuel

/-- Witness for C5: waiting for code 7 on a queue holding one message with
code 7 dispatches it and returns 0. -/
theorem wait_for_spec_witness :
    ∃ a' es, pa_asyncmsgq_wait_for (fun _ _ _ _ _ => 0) 2 exQueued 7
          = some (0, a', es)
      ∧ dispatchedCodes es
          = (exQueued.asyncq.takeWhile (fun i => i.code ≠ 7)).map Item.code
            ++ [7] :=
  (wait_for_spec (fun _ _ _ _ _ => 0) exQueued 7 2 rfl (by decide)).1
    ⟨exPostItem, by simp [exQueued], rfl⟩

/-- Helper: behaviour of the `asyncmsgq_cb` drain loop over the queue
contents, by induction on the queue. -/
theorem cb_loop_go (pm : Nat → Int → Nat → Int → Memchunk → Int) :
    ∀ q : List Item, ∀ a : AMQState, ∀ fuel : Nat,
      a.asyncq = q → a.current = none → q.length < fuel →
      ∃ a' es, asyncmsgq_cb_loop pm fuel a = some (a', es)
        ∧ a'.asyncq = [] ∧ a'.current = none
        ∧ dispatchedCodes es = q.map Item.code
        ∧ es.getLast? = some (Effect.beforePoll 0) := by
  intro q
  induction q with
  | nil =>
    intro a fuel hq hcur hfuel
    obtain ⟨f, rfl⟩ : ∃ f, fuel = f + 1 := ⟨fuel - 1, by omega⟩
    refine ⟨a, [Effect.beforePoll 0], ?_, hq, hcur,
      by simp [dispatchedCodes], by simp⟩
    simp [asyncmsgq_cb_loop, pa_asyncmsgq_get, hq, hcur,
      pa_asyncq_before_poll]
  | cons i rest ih =>
    intro a fuel hq hcur hfuel
    obtain ⟨f, rfl⟩ : ∃ f, fuel = f + 1 := ⟨fuel - 1, by omega⟩
    have hget : pa_asyncmsgq_get a true true true true true false
        = some (0, { a with asyncq := rest, current := some i },
            ⟨some i.code, some i.object, some i.userdata, some i.offset,
             some i.memchunk⟩) := by
      simp [pa_asyncmsgq_get, hcur, hq]
    obtain ⟨a2, es2, hdone, hc2, hq2, hdc2⟩ :=
      done_shape { a with asyncq := rest, current := some i } i
        (pa_asyncmsgq_dispatch pm i.object i.code i.userdata i.offset
          i.memchunk) rfl
    have hq2' : a2.asyncq = rest := hq2
    have hfuel' : rest.length < f := by
      simp [List.length_cons] at hfuel
      omega
    have hstep : asyncmsgq_cb_loop pm (f + 1) a
        = (asyncmsgq_cb_loop pm f a2).map
            (fun p => (p.1,
              (Effect.dispatchCall i.code
                (pa_asyncmsgq_dispatch pm i.object i.code i.userdata
                  i.offset i.memchunk) :: es2) ++ p.2)) := by
      simp [asyncmsgq_cb_loop, hget, hdone]
    obtain ⟨a', es', hrun, hq', hc', hdc', hlast'⟩ :=
      ih a2 f hq2' hc2 hfuel'
    have hne : es' ≠ [] := by
      intro h
      rw [h] at hlast'
      simp at hlast'
    refine ⟨a', Effect.dispatchCall i.code
        (pa_asyncmsgq_dispatch pm i.object i.code i.userdata i.offset
          i.memchunk) :: (es2 ++ es'), ?_, hq', hc', ?_, ?_⟩
    · rw [hstep, hrun]
      rfl
    · simp [dispatchedCodes_append, dispatchedCodes_cons_dispatch, hdc2,
        hdc']
    · rw [← List.cons_append, List.getLast?_append_of_ne_nil _ hne]
      exact hlast'

/-- C8: the core's fd-readiness callback first consumes pending wake
notifications (`after_poll`), then drains the queue — one
`get`/`dispatch`/`done` cycle per message, in order — and returns to the
main loop only once `before_poll` reports the queue verifiably empty
(returns 0): the trace starts with the after-poll, contains exactly the
queued codes as dispatches, and ends with a before-poll returning 0 on an
emptied queue. -/
theorem asyncmsgq_cb_spec (pm : Nat → Int → Nat → Int → Memchunk → Int)
    (a : AMQState) (fuel : Nat)
    (hcur : a.current = none) (hfuel : a.asyncq.length < fuel) :
    ∃ a' es, asyncmsgq_cb pm true true fuel a
          = some (a', Effect.afterPoll :: es)
      ∧ a'.asyncq = [] ∧ a'.current = none
      ∧ dispatchedCodes es = a.asyncq.map Item.code
      ∧ es.getLast? = some (Effect.beforePoll 0) := by
  obtain ⟨a', es, hrun, hq, hc, hdc, hlast⟩ :=
    cb_loop_go pm a.asyncq a fuel rfl hcur hfuel
  exact ⟨a', es, by simp [asyncmsgq_cb, hrun], hq, hc, hdc, hlast⟩

/-- Witness for C8: draining a queue holding one message with code 7. -/
theorem asyncmsgq_cb_spec_witness :
    ∃ a' es, asyncmsgq_cb (fun _ _ _ _ _ => 0) true true 2 exQueued
          = some (a', Effect.afterPoll :: es)
      ∧ a'.asyncq = [] ∧ a'.current = none
      ∧ dispatchedCodes es = exQueued.asyncq.map Item.code
      ∧ es.getLast? = some (Effect.beforePoll 0) :=
  asyncmsgq_cb_spec (fun _ _ _ _ _ => 0) exQueued 2 rfl (by decide)
